import Mathlib

/-!
Shallow embedding of the glyphLog structured-logging library (TypeScript)
and proofs about its core pipeline: level gating, the middleware chain,
fan-out dispatch with per-sink failure isolation, file rotation, HTTP
batching, the memory ring buffer, child loggers, and formatters.

Sources embedded: `BaseLogger` (log / processEntry / writeToTransports /
fatal / child-related registries), `FileTransport`, `HttpTransport`,
`MemoryTransport`, `JsonFormatter`, `SimpleFormatter`, and the `LogLevel`
enum.
-/

namespace GlyphLog

/-- The six severities of `LogLevel` (enum ordinals 0–5 in the source). -/
inductive LogLevel where
  | trace
  | debug
  | info
  | warn
  | error
  | fatal
deriving DecidableEq, Repr

/-- Numeric value of a level, exactly the enum ordinals `TRACE = 0 … FATAL = 5`. -/
def LogLevel.toNat : LogLevel → Nat
  | .trace => 0
  | .debug => 1
  | .info => 2
  | .warn => 3
  | .error => 4
  | .fatal => 5

/-- The reverse enum mapping `LogLevel[n]`, used by the formatters. -/
def LogLevel.name : LogLevel → String
  | .trace => "TRACE"
  | .debug => "DEBUG"
  | .info => "INFO"
  | .warn => "WARN"
  | .error => "ERROR"
  | .fatal => "FATAL"

/-- JavaScript values appearing in `context` / `meta`. Plain data is inline;
`ref` points into a heap of objects, which is how cyclic structures arise. -/
inductive JVal where
  | jstr (s : String)
  | jnum (n : Int)
  | jbool (b : Bool)
  | jnull
  | obj (fields : List (String × JVal))
  | ref (r : Nat)

/-- The object heap: each reference names a list of key/value fields. -/
def JHeap : Type := Nat → List (String × JVal)

/-- Captured `Error` data (`name` / `message` / optional `stack`). -/
structure ErrInfo where
  name : String
  message : String
  stack : Option String

/-- One log occurrence (`LogEntry` in the source). The timestamp is the
abstract creation instant (`new Date()` modelled as a number). -/
structure LogEntry where
  level : LogLevel
  message : String
  timestamp : Nat
  context : Option JVal
  error : Option ErrInfo
  meta : List (String × JVal)

/-- A sink (`LogTransport`). `level` is `none` when the transport leaves
`level` undefined (the dispatch code checks `transport.level === undefined`);
`log` is the transport's `log` method, which may throw (`Except.error`). -/
structure LogTransport where
  name : String
  level : Option LogLevel
  log : LogEntry → Except String Unit

/-- The gate `transport.level === undefined || entry.level >= transport.level`
from `BaseLogger.writeToTransports`. -/
def transportAccepts (t : LogTransport) (e : LogEntry) : Bool :=
  match t.level with
  | none => true
  | some l => decide (l.toNat ≤ e.level.toNat)

/-- Result of one transport's dispatch attempt inside the fan-out. -/
inductive TransportOutcome where
  | skipped
  | delivered
  | failed (msg : String)
deriving DecidableEq, Repr

/-- One iteration of the `transports.map` body in `writeToTransports`:
skip below-level sinks, invoke `transport.log`, and catch a thrown failure. -/
def attemptTransport (t : LogTransport) (e : LogEntry) : TransportOutcome :=
  if transportAccepts t e then
    match t.log e with
    | .ok _ => .delivered
    | .error msg => .failed msg
  else .skipped

/-- `BaseLogger.writeToTransports`: every registered sink is attempted,
independently; a failure is caught per sink, never re-raised. -/
def writeToTransports (ts : List LogTransport) (e : LogEntry) : List TransportOutcome :=
  ts.map (fun t => attemptTransport t e)

/-- The `console.error` side-channel reports produced by the fan-out:
one `(transport name, message)` pair per caught delivery failure. -/
def errorReports (ts : List LogTransport) (e : LogEntry) : List (String × String) :=
  ts.filterMap (fun t =>
    match attemptTransport t e with
    | .failed m => some (t.name, m)
    | _ => none)

/-- A middleware `(entry, next) => void` under the documented contract:
it may mutate the entry in place and either calls `next` exactly once
(`some` of the possibly mutated entry) or omits the call (`none`). -/
def LogMiddleware : Type := LogEntry → Option LogEntry

/-- `BaseLogger.processEntry`'s chain, instrumented: runs middleware in
registration order with the index cursor; returns one `Bool` per middleware
actually executed (whether it called its continuation) and the entry handed
to the fan-out, or `none` when some middleware short-circuited. -/
def runMiddleware : List LogMiddleware → LogEntry → List Bool × Option LogEntry
  | [], e => ([], some e)
  | m :: ms, e =>
    match m e with
    | none => ([false], none)
    | some e' =>
      let r := runMiddleware ms e'
      (true :: r.1, r.2)

/-- The mutable state of a `BaseLogger` that the pipeline reads. -/
structure LoggerState where
  level : LogLevel
  silent : Bool
  exitOnError : Bool
  middleware : List LogMiddleware
  transports : List LogTransport
  defaultMeta : List (String × JVal)

/-- What a single `log` call did: gated away, dropped by middleware, or
dispatched to the sinks (with the chain continuation record). -/
inductive DispatchResult where
  | blocked
  | dropped (chainRecord : List Bool)
  | dispatched (chainRecord : List Bool) (outcomes : List TransportOutcome)

/-- The entry construction inside `BaseLogger.log`: the default metadata is
shallow-copied into `meta`, context and error are attached when present. -/
def BaseLogger.buildEntry (s : LoggerState) (lvl : LogLevel) (msg : String) (now : Nat)
    (ctx : Option JVal) (err : Option ErrInfo) : LogEntry :=
  { level := lvl, message := msg, timestamp := now,
    context := ctx, error := err, meta := s.defaultMeta }

/-- `BaseLogger.log`: the silent/level gate, then the middleware chain, then
the fan-out. Total by construction — nothing raises to the caller. -/
def BaseLogger.log (s : LoggerState) (lvl : LogLevel) (msg : String) (now : Nat)
    (ctx : Option JVal) (err : Option ErrInfo) : DispatchResult :=
  if s.silent = true ∨ lvl.toNat < s.level.toNat then .blocked
  else
    match (runMiddleware s.middleware (BaseLogger.buildEntry s lvl msg now ctx err)).2 with
    | none => .dropped (runMiddleware s.middleware (BaseLogger.buildEntry s lvl msg now ctx err)).1
    | some e' =>
      .dispatched (runMiddleware s.middleware (BaseLogger.buildEntry s lvl msg now ctx err)).1
        (writeToTransports s.transports e')

/-- Whether an outcome means the sink's `log` method was invoked (the sink
received the entry), successfully or not. -/
def TransportOutcome.isInvoked : TransportOutcome → Bool
  | .skipped => false
  | .delivered => true
  | .failed _ => true

/-- Whether the sink at index `i` received the entry (its `log` method was
invoked, successfully or not) in the result of a `log` call. -/
def invokedAt (r : DispatchResult) (i : Nat) : Bool :=
  match r with
  | .dispatched _ out => ((out.get? i).map TransportOutcome.isInvoked).getD false
  | _ => false

/-- Observable events of one logging call, in program order: sink deliveries
and caught-failure reports from the fan-out, and `process.exit(1)`. -/
inductive LogEvent where
  | delivered (name : String) (e : LogEntry)
  | failureReport (name msg : String)
  | exited (code : Nat)

/-- The events of `writeToTransports`, one per non-skipped sink, in sink
registration order (the order the `map` invokes each `transport.log`). -/
def transportEvents (ts : List LogTransport) (e : LogEntry) : List LogEvent :=
  ts.filterMap (fun t =>
    match attemptTransport t e with
    | .skipped => none
    | .delivered => some (.delivered t.name e)
    | .failed m => some (.failureReport t.name m))

/-- The events of one `BaseLogger.log` call: nothing when gated or dropped
by middleware, otherwise the fan-out events. -/
def BaseLogger.logEvents (s : LoggerState) (lvl : LogLevel) (msg : String) (now : Nat)
    (ctx : Option JVal) (err : Option ErrInfo) : List LogEvent :=
  if s.silent = true ∨ lvl.toNat < s.level.toNat then []
  else
    match (runMiddleware s.middleware (BaseLogger.buildEntry s lvl msg now ctx err)).2 with
    | none => []
    | some e' => transportEvents s.transports e'

/-- `BaseLogger.fatal`: `this.log(LogLevel.FATAL, message, context, error)`,
then `process.exit(1)` when `exitOnError` is set. -/
def BaseLogger.fatalEvents (s : LoggerState) (msg : String) (now : Nat)
    (ctx : Option JVal) (err : Option ErrInfo) : List LogEvent :=
  BaseLogger.logEvents s .fatal msg now ctx err ++
    (if s.exitOnError then [.exited 1] else [])

/-! ## File transport (`FileTransport`) -/

/-- The filesystem the file sink writes to: file name to contents. -/
def FS : Type := String → Option String

/-- `fs.rename(old, new)`: the destination takes the source's content
(overwriting), the source disappears. -/
def FS.rename (fs : FS) (oldN newN : String) : FS :=
  fun n => if n = oldN then none else if n = newN then fs oldN else fs n

/-- `fs.unlink(name)`. -/
def FS.unlink (fs : FS) (nm : String) : FS :=
  fun n => if n = nm then none else fs n

/-- `fs.appendFile(name, s)`: creates the file when absent. -/
def FS.append (fs : FS) (nm : String) (s : String) : FS :=
  fun n => if n = nm then some ((fs nm).getD "" ++ s) else fs n

/-- The rotated-file name `` `${filename}.${i}` ``. -/
def rotKey (filename : String) (i : Nat) : String :=
  filename ++ "." ++ toString i

/-- State of a `FileTransport`: the formatter is the strategy chosen at
construction from the `json` flag; `currentSize` is the in-memory byte
counter for the active file. -/
structure FileTransport where
  level : LogLevel
  filename : String
  maxSize : Nat
  maxFiles : Nat
  formatter : LogEntry → String
  currentSize : Nat

/-- The `for (let i = this.maxFiles - 1; i >= 1; i--)` shift loop from
`FileTransport.rotate`, indices descending: an existing `<filename>.i` is
deleted when `i = maxFiles - 1`, otherwise renamed to `<filename>.(i+1)`.
`FileTransport.rotateShift fname maxFiles i fs` runs indices `i, …, 1`. -/
def FileTransport.rotateShift (fname : String) (maxFiles : Nat) : Nat → FS → FS
  | 0, fs => fs
  | i + 1, fs =>
    let fs' :=
      if (fs (rotKey fname (i + 1))).isSome then
        if i + 1 = maxFiles - 1 then FS.unlink fs (rotKey fname (i + 1))
        else FS.rename fs (rotKey fname (i + 1)) (rotKey fname (i + 2))
      else fs
    FileTransport.rotateShift fname maxFiles i fs'

/-- The filesystem effect of `FileTransport.rotate`: shift the numbered
files, then move the active file (when it exists) to `<filename>.1`. -/
def FileTransport.rotateFS (t : FileTransport) (fs : FS) : FS :=
  if ((FileTransport.rotateShift t.filename t.maxFiles (t.maxFiles - 1) fs) t.filename).isSome
  then FS.rename (FileTransport.rotateShift t.filename t.maxFiles (t.maxFiles - 1) fs)
    t.filename (rotKey t.filename 1)
  else FileTransport.rotateShift t.filename t.maxFiles (t.maxFiles - 1) fs

/-- `FileTransport.rotate`: the filesystem effect plus the `currentSize = 0`
reset. -/
def FileTransport.rotate (t : FileTransport) (fs : FS) : FileTransport × FS :=
  ({ t with currentSize := 0 }, t.rotateFS fs)

/-- `FileTransport.log`: level gate, format plus `'\n'`, rotate first when
`currentSize + formatted.length > maxSize`, then append and count the bytes. -/
def FileTransport.log (t : FileTransport) (fs : FS) (e : LogEntry) : FileTransport × FS :=
  if e.level.toNat < t.level.toNat then (t, fs)
  else if t.maxSize < t.currentSize + (t.formatter e ++ "\n").length then
    ({ (t.rotate fs).1 with
        currentSize := (t.rotate fs).1.currentSize + (t.formatter e ++ "\n").length },
     FS.append (t.rotate fs).2 t.filename (t.formatter e ++ "\n"))
  else
    ({ t with currentSize := t.currentSize + (t.formatter e ++ "\n").length },
     FS.append fs t.filename (t.formatter e ++ "\n"))

/-- Folding `FileTransport.log` over a sequence of delivered entries. -/
def FileTransport.processAll (t : FileTransport) (fs : FS) : List LogEntry → FileTransport × FS
  | [] => (t, fs)
  | e :: rest =>
    let p := FileTransport.log t fs e
    FileTransport.processAll p.1 p.2 rest

/-! ## HTTP transport (`HttpTransport`) -/

/-- State of an `HttpTransport` read by `log`/`flush`: the pending buffer
and the batch threshold. -/
structure HttpTransport where
  level : LogLevel
  batchSize : Nat
  buffer : List LogEntry

/-- `HttpTransport.flush`: early return on an empty buffer; otherwise
`splice(0)` removes every pending entry, the batch is transmitted, and on
failure (`ok = false`, a network error or non-ok response) the removed
entries are `unshift`ed back to the front of the buffer. `arrived` are the
entries pushed while the `fetch` was awaited (they sit in the emptied
buffer when the failure handler runs); a call path with no suspension
passes `[]`. Returns the new state and the transmissions attempted. -/
def HttpTransport.flush (t : HttpTransport) (ok : Bool) (arrived : List LogEntry) :
    HttpTransport × List (List LogEntry) :=
  if t.buffer.isEmpty then (t, [])
  else
    let entries := t.buffer
    let bufferAfterAwait := arrived
    if ok then ({ t with buffer := bufferAfterAwait }, [entries])
    else ({ t with buffer := entries ++ bufferAfterAwait }, [entries])

/-- `HttpTransport.log`: level gate, push onto the buffer, and flush
immediately when the buffer length reaches the batch threshold. `ok` is
the outcome of the transmission such a flush performs. -/
def HttpTransport.log (t : HttpTransport) (e : LogEntry) (ok : Bool) :
    HttpTransport × List (List LogEntry) :=
  if e.level.toNat < t.level.toNat then (t, [])
  else
    let t₁ : HttpTransport := { t with buffer := t.buffer ++ [e] }
    if t₁.batchSize ≤ t₁.buffer.length then t₁.flush ok []
    else (t₁, [])

/-! ## Memory transport (`MemoryTransport`) -/

/-- State of a `MemoryTransport`: the retained entries and the capacity. -/
structure MemoryTransport where
  level : LogLevel
  maxSize : Nat
  logs : List LogEntry

/-- `MemoryTransport.log`: level gate, push, then `shift()` the oldest
entry when the retained count exceeds `maxSize`. -/
def MemoryTransport.log (t : MemoryTransport) (e : LogEntry) : MemoryTransport :=
  if e.level.toNat < t.level.toNat then t
  else
    let l := t.logs ++ [e]
    if t.maxSize < l.length then { t with logs := l.tail } else { t with logs := l }

/-- Folding `MemoryTransport.log` over a sequence of deliveries. -/
def MemoryTransport.processAll (t : MemoryTransport) (es : List LogEntry) : MemoryTransport :=
  es.foldl MemoryTransport.log t

/-! ## Array references

JavaScript arrays are mutable objects passed by reference. `Store α` is the
heap of arrays of `α`: aliasing facts (the child logger sharing its parent's
`transports` array, `getLogs`/`getTransports` returning fresh copies) are
stated against it. -/

/-- A heap of arrays: `next` is the next fresh reference. -/
structure Store (α : Type) where
  next : Nat
  data : Nat → List α

/-- Read the array behind a reference. -/
def Store.get (σ : Store α) (r : Nat) : List α := σ.data r

/-- Allocate a fresh array with the given contents. -/
def Store.alloc (σ : Store α) (v : List α) : Store α × Nat :=
  ({ next := σ.next + 1,
     data := fun r => if r = σ.next then v else σ.data r }, σ.next)

/-- `array.push(x)` through a reference. -/
def Store.push (σ : Store α) (r : Nat) (x : α) : Store α :=
  { σ with data := fun r' => if r' = r then σ.data r ++ [x] else σ.data r' }

/-- Overwrite the array behind a reference (an arbitrary mutation). -/
def Store.set (σ : Store α) (r : Nat) (v : List α) : Store α :=
  { σ with data := fun r' => if r' = r then v else σ.data r' }

/-- A logger whose `transports` and `middleware` fields are array
references into the heap, as in the running program. -/
structure LoggerRef where
  level : LogLevel
  silent : Bool
  exitOnError : Bool
  transportsRef : Nat
  middlewareRef : Nat
  defaultMeta : List (String × JVal)

/-- The pair of heaps a set of loggers shares. -/
structure LoggerHeap where
  tStore : Store LogTransport
  mStore : Store LogMiddleware

/-- The spread `{ ...this.defaultMeta, ...meta }`: later keys win. -/
def mergeMeta (old extra : List (String × JVal)) : List (String × JVal) :=
  old.filter (fun kv => extra.all (fun kv' => kv'.1 ≠ kv.1)) ++ extra

/-- `Logger.child`: the child's config carries `transports: this.transports`
(the same array reference) and merged metadata; after construction the
middleware list is replaced by the copy `[...this.middleware]` (a freshly
allocated array with the same contents). -/
def Logger.child (h : LoggerHeap) (lg : LoggerRef) (meta : List (String × JVal)) :
    LoggerHeap × LoggerRef :=
  let a := h.mStore.alloc (h.mStore.get lg.middlewareRef)
  ({ h with mStore := a.1 },
   { lg with middlewareRef := a.2, defaultMeta := mergeMeta lg.defaultMeta meta })

/-- `BaseLogger.addTransport`: `this.transports.push(transport)` mutates the
array behind the logger's reference. -/
def BaseLogger.addTransport (h : LoggerHeap) (lg : LoggerRef) (t : LogTransport) : LoggerHeap :=
  { h with tStore := h.tStore.push lg.transportsRef t }

/-- `BaseLogger.use`: `this.middleware.push(middleware)`. -/
def BaseLogger.use (h : LoggerHeap) (lg : LoggerRef) (m : LogMiddleware) : LoggerHeap :=
  { h with mStore := h.mStore.push lg.middlewareRef m }

/-- The transports a logger currently sees through its reference. -/
def BaseLogger.transportsOf (h : LoggerHeap) (lg : LoggerRef) : List LogTransport :=
  h.tStore.get lg.transportsRef

/-- The middleware a logger currently sees through its reference. -/
def BaseLogger.middlewareOf (h : LoggerHeap) (lg : LoggerRef) : List LogMiddleware :=
  h.mStore.get lg.middlewareRef

/-! ## Formatters (`JsonFormatter`, `SimpleFormatter`) -/

/-- `JSON.stringify` on the value forms of `JVal` (string escaping elided —
no claim inspects the escaped text). A reference that is already on the
current path is a circular structure and raises `TypeError`, modelled as
`Except.error`; `fuel` bounds heap-chasing depth (exhausting it models the
engine's stack overflow, also a raise). The sum argument serializes either
one value or an object's field list. -/
def stringifyAux (h : JHeap) : Nat → List Nat → JVal ⊕ List (String × JVal) → Except Unit String
  | _, _, .inl (.jstr s) => .ok ("\"" ++ s ++ "\"")
  | _, _, .inl (.jnum n) => .ok (toString n)
  | _, _, .inl (.jbool b) => .ok (if b then "true" else "false")
  | _, _, .inl .jnull => .ok "null"
  | fuel, seen, .inl (.obj fields) =>
    (stringifyAux h fuel seen (.inr fields)).map (fun s => "\x7b" ++ s ++ "\x7d")
  | fuel, seen, .inl (.ref r) =>
    if r ∈ seen then .error ()
    else
      match fuel with
      | 0 => .error ()
      | f + 1 => (stringifyAux h f (r :: seen) (.inr (h r))).map (fun s => "\x7b" ++ s ++ "\x7d")
  | _, _, .inr [] => .ok ""
  | fuel, seen, .inr ((k, v) :: rest) => do
    let sv ← stringifyAux h fuel seen (.inl v)
    let sr ← stringifyAux h fuel seen (.inr rest)
    .ok ("\"" ++ k ++ "\":" ++ sv ++ (if rest.isEmpty then "" else ",") ++ sr)
termination_by fuel _ x => (fuel, sizeOf x)

/-- `JSON.stringify` of one value. -/
def stringify (h : JHeap) (fuel : Nat) (v : JVal) : Except Unit String :=
  stringifyAux h fuel [] (.inl v)

/-- `Date.prototype.toISOString`, abstracted to an injective rendering of
the creation instant; no claim inspects its text. -/
def dateToISOString (t : Nat) : String := toString t

/-- `Object.keys(context).length` for a context value. -/
def contextKeyCount (h : JHeap) : JVal → Nat
  | .obj fields => fields.length
  | .ref r => (h r).length
  | _ => 0

/-- The field list of the plain object `JsonFormatter.format` assembles:
`timestamp`, `level`, `message`, then `context` when present, then the
`\x7bname, message, stack\x7d` error object when present, then `meta`. -/
def JsonFormatter.fields (e : LogEntry) : List (String × JVal) :=
  [("timestamp", .jstr (dateToISOString e.timestamp)),
   ("level", .jstr e.level.name),
   ("message", .jstr e.message)]
  ++ (match e.context with
      | some c => [("context", c)]
      | none => [])
  ++ (match e.error with
      | some er =>
        [("error", .obj ([("name", .jstr er.name), ("message", .jstr er.message)]
          ++ (match er.stack with
              | some st => [("stack", .jstr st)]
              | none => [])))]
      | none => [])
  ++ [("meta", .obj e.meta)]

/-- `JsonFormatter.format`: assembles the plain object and `JSON.stringify`s
it — there is no catch around the call. -/
def JsonFormatter.format (h : JHeap) (fuel : Nat) (e : LogEntry) : Except Unit String :=
  (stringifyAux h fuel [] (.inr (JsonFormatter.fields e))).map
    (fun s => "\x7b" ++ s ++ "\x7d")

/-- The fixed lead text `<iso> [<LEVEL>] <message>` of `SimpleFormatter`. -/
def SimpleFormatter.head (e : LogEntry) : String :=
  dateToISOString e.timestamp ++ " [" ++ e.level.name ++ "] " ++ e.message

/-- The ` ERROR: <message>` / `\nSTACK: <stack>` suffix `SimpleFormatter`
appends when the entry carries an error. -/
def SimpleFormatter.withError (e : LogEntry) (withCtx : String) : String :=
  match e.error with
  | some er =>
    match er.stack with
    | some st => withCtx ++ " ERROR: " ++ er.message ++ "\nSTACK: " ++ st
    | none => withCtx ++ " ERROR: " ++ er.message
  | none => withCtx

/-- `SimpleFormatter.format`: the lead text, then the `JSON.stringify`ed
context when present and non-empty (no catch around the call), then the
error suffix when an error is attached. -/
def SimpleFormatter.format (h : JHeap) (fuel : Nat) (e : LogEntry) : Except Unit String :=
  Except.map (SimpleFormatter.withError e)
    (match e.context with
     | some c =>
       if 0 < contextKeyCount h c then
         (stringifyAux h fuel [] (.inl c)).map (fun s => SimpleFormatter.head e ++ " " ++ s)
       else .ok (SimpleFormatter.head e)
     | none => .ok (SimpleFormatter.head e))

/-- Whether a value (or field list) is self-contained: built only from
inline data, with no object references at all — hence no cycles. -/
def refFreeAux : JVal ⊕ List (String × JVal) → Bool
  | .inl (.jstr _) => true
  | .inl (.jnum _) => true
  | .inl (.jbool _) => true
  | .inl .jnull => true
  | .inl (.ref _) => false
  | .inl (.obj fields) => refFreeAux (.inr fields)
  | .inr [] => true
  | .inr ((_, v) :: rest) => refFreeAux (.inl v) && refFreeAux (.inr rest)
termination_by x => sizeOf x

/-- An entry whose caller-supplied values are all self-contained. -/
def LogEntry.refFreeVals (e : LogEntry) : Bool :=
  (match e.context with
   | some c => refFreeAux (.inl c)
   | none => true) && refFreeAux (.inr e.meta)

/-! ## Concrete fixtures used by counterexamples and witnesses -/

/-- Logger used in the counterexample to claim C1: not silent, level INFO,
one middleware that never calls its continuation, one sink with no minimum
level. -/
def c1Logger : LoggerState :=
  { level := .info, silent := false, exitOnError := false,
    middleware := [fun _ => none],
    transports := [{ name := "memory", level := none, log := fun _ => .ok () }],
    defaultMeta := [] }

/-- The sink used by the witness to `c1_gate_iff`. -/
def c1wTransport : LogTransport :=
  { name := "memory", level := none, log := fun _ => .ok () }

/-- The middleware-free logger used by the witness to `c1_gate_iff`. -/
def c1wLogger : LoggerState :=
  { level := .info, silent := false, exitOnError := false, middleware := [],
    transports := [c1wTransport], defaultMeta := [] }

/-- The always-throwing sink of the C2 witness. -/
def c2FailSink : LogTransport :=
  { name := "faulty", level := some .info, log := fun _ => .error "boom" }

/-- The healthy sink of the C2 witness. -/
def c2OkSink : LogTransport :=
  { name := "memory", level := none, log := fun _ => .ok () }

/-- The entry dispatched in the C2 witness. -/
def c2Entry : LogEntry :=
  { level := .info, message := "m", timestamp := 0, context := none,
    error := none, meta := [] }

/-- The two-middleware logger of the C3 witness: both middleware call their
continuation and leave the entry unchanged. -/
def c3wLogger : LoggerState :=
  { level := .info, silent := false, exitOnError := false,
    middleware := [fun e => some e, fun e => some e],
    transports := [c1wTransport], defaultMeta := [] }

/-- The entry built by the C3 witness call. -/
def c3wEntry : LogEntry := BaseLogger.buildEntry c3wLogger .info "x" 0 none none

/-- The `exitOnError` logger of the C8 witness. -/
def c8wLogger : LoggerState :=
  { level := .info, silent := false, exitOnError := true, middleware := [],
    transports := [c1wTransport], defaultMeta := [] }

/-- A file transport as constructed: `currentSize` starts at zero. -/
def initialFileTransport (lvl : LogLevel) (fname : String) (maxSize maxFiles : Nat)
    (fmt : LogEntry → String) : FileTransport :=
  { level := lvl, filename := fname, maxSize := maxSize, maxFiles := maxFiles,
    formatter := fmt, currentSize := 0 }

/-- The filesystem before any write. -/
def emptyFS : FS := fun _ => none

/-- A fresh file transport processing a sequence of deliveries against an
initially empty filesystem. -/
def c4Run (lvl : LogLevel) (fname : String) (maxSize maxFiles : Nat)
    (fmt : LogEntry → String) (pre : List LogEntry) : FileTransport × FS :=
  FileTransport.processAll (initialFileTransport lvl fname maxSize maxFiles fmt) emptyFS pre

/-- The oversized entry of the C4 counterexample. -/
def c4xEntry : LogEntry :=
  { level := .info, message := "0123456789", timestamp := 0, context := none,
    error := none, meta := [] }

/-- The file transport of the C4 counterexample: `maxSize = 5` bytes. -/
def c4xTransport : FileTransport :=
  initialFileTransport .info "app.log" 5 3 (fun e => e.message)

/-- First delivery of the C4 witness run. -/
def c4wE1 : LogEntry :=
  { level := .info, message := "abc", timestamp := 0, context := none,
    error := none, meta := [] }

/-- Second delivery of the C4 witness run: it triggers rotation. -/
def c4wE2 : LogEntry :=
  { level := .info, message := "defg", timestamp := 1, context := none,
    error := none, meta := [] }

/-- The nearly full transport of the C5 witness: `batchSize = 3` with two
entries pending. -/
def c5wTransport : HttpTransport :=
  { level := .info, batchSize := 3, buffer := [c4wE1, c4wE1] }

/-- The in-flight transport of the C6 witness: three entries pending. -/
def c6wTransport : HttpTransport :=
  { level := .info, batchSize := 3, buffer := [c4wE1, c4wE1, c4wE2] }

/-- The heap of the C7 counterexample: one (empty) transports array at
reference 0 and one (empty) middleware array at reference 0. -/
def c7xHeap : LoggerHeap :=
  { tStore := { next := 1, data := fun _ => [] },
    mStore := { next := 1, data := fun _ => [] } }

/-- The parent logger of the C7 counterexample. -/
def c7xParent : LoggerRef :=
  { level := .info, silent := false, exitOnError := false,
    transportsRef := 0, middlewareRef := 0, defaultMeta := [] }

/-- The last `n` elements of a list (all of it when it is shorter). -/
def lastN (n : Nat) (l : List α) : List α := l.drop (l.length - n)

/-- `MemoryTransport.getLogs`: `return [...this.logs]` — a freshly
allocated array holding a copy of the retained entries. -/
def MemoryTransport.getLogs (σ : Store LogEntry) (t : MemoryTransport) :
    Store LogEntry × Nat :=
  σ.alloc t.logs

/-- A fresh memory transport processing a sequence of deliveries. -/
def c10Run (lvl : LogLevel) (maxSize : Nat) (entries : List LogEntry) : MemoryTransport :=
  MemoryTransport.processAll { level := lvl, maxSize := maxSize, logs := [] } entries

/-- The heap of the C9 counterexample: object 0 contains itself
(`circular.self = circular` from the repository's own test). -/
def c9xHeap : JHeap :=
  fun r => if r = 0 then [("name", .jstr "test"), ("self", .ref 0)] else []

/-- The entry of the C9 counterexample: its context is the cyclic object. -/
def c9xEntry : LogEntry :=
  { level := .info, message := "Circular test", timestamp := 0,
    context := some (.ref 0), error := none, meta := [] }

/-- The self-contained entry of the C9 witness: inline (acyclic) context
and metadata, an attached error with a stack. -/
def c9wEntry : LogEntry :=
  { level := .error, message := "boom", timestamp := 3,
    context := some (.obj [("userId", .jnum 7)]),
    error := some { name := "Error", message := "bad", stack := some "at main" },
    meta := [("service", .jstr "api")] }

/-! ## Lemmas about the middleware chain -/

theorem runMiddleware_length_le (ms : List LogMiddleware) (e : LogEntry) :
    (runMiddleware ms e).1.length ≤ ms.length := by
  induction ms generalizing e with
  | nil => simp [runMiddleware]
  | cons m ms ih =>
    cases hm : m e with
    | none => simp [runMiddleware, hm]
    | some e' =>
      simpa [runMiddleware, hm, Nat.succ_le_succ_iff] using ih e'

theorem runMiddleware_some_iff (ms : List LogMiddleware) (e : LogEntry) :
    (∃ e', (runMiddleware ms e).2 = some e') ↔
      (runMiddleware ms e).1 = List.replicate ms.length true := by
  induction ms generalizing e with
  | nil => simp [runMiddleware]
  | cons m ms ih =>
    cases hm : m e with
    | none => simp [runMiddleware, hm, List.replicate_succ]
    | some e' =>
      simpa [runMiddleware, hm, List.replicate_succ] using ih e'

theorem runMiddleware_none_shape (ms : List LogMiddleware) (e : LogEntry)
    (hn : (runMiddleware ms e).2 = none) :
    ∃ n, n < ms.length ∧ (runMiddleware ms e).1 = List.replicate n true ++ [false] := by
  induction ms generalizing e with
  | nil => simp [runMiddleware] at hn
  | cons m ms ih =>
    cases hm : m e with
    | none =>
      exact ⟨0, by simp, by simp [runMiddleware, hm]⟩
    | some e' =>
      rw [runMiddleware, hm] at hn ⊢
      simp only at hn ⊢
      obtain ⟨n, hlt, hsh⟩ := ih e' hn
      exact ⟨n + 1, by simpa using hlt, by simp [List.replicate_succ, hsh]⟩

theorem runMiddleware_executed_continue (ms : List LogMiddleware) (e : LogEntry) :
    ∀ i, i + 1 < (runMiddleware ms e).1.length →
      (runMiddleware ms e).1.get? i = some true := by
  induction ms generalizing e with
  | nil => simp [runMiddleware]
  | cons m ms ih =>
    cases hm : m e with
    | none => simp [runMiddleware, hm]
    | some e' =>
      intro i hi
      rw [runMiddleware, hm] at hi ⊢
      simp only [List.length_cons] at hi
      cases i with
      | zero => rfl
      | succ j =>
        simpa using ih e' j (by omega)

/-! ## Claim C1 — the level gate -/

theorem isInvoked_attempt (t : LogTransport) (e : LogEntry) :
    (attemptTransport t e).isInvoked = transportAccepts t e := by
  unfold attemptTransport
  by_cases h : transportAccepts t e = true
  · rw [if_pos h, h]
    cases t.log e <;> rfl
  · rw [if_neg h]
    simp only [Bool.not_eq_true] at h
    rw [h]
    rfl

/-- Claim C1, counterexample: an INFO call on `c1Logger` satisfies every
condition on the right side of the claimed equivalence (silent flag false,
call level at the logger minimum, sink with no minimum level), yet the sink
receives nothing, because the registered middleware short-circuits the
chain. So delivery is not equivalent to the three level-gate conditions. -/
theorem c1_counterexample :
    invokedAt (BaseLogger.log c1Logger .info "x" 0 none none) 0 = false ∧
      c1Logger.silent = false ∧
      c1Logger.level.toNat ≤ LogLevel.info.toNat ∧
      (c1Logger.transports.get? 0).map (fun t => t.level) = some none := by
  refine ⟨rfl, rfl, by decide, rfl⟩

/-- Claim C1 (amended): a registered sink receives the entry iff the silent
flag is false, the call level is at or above the logger's minimum, the
middleware chain passes the entry through to the fan-out, and the final
entry is at or above the sink's minimum level (a sink with no minimum
receives every entry the fan-out sees). With no middleware registered this
is exactly the claimed three-condition equivalence. -/
theorem c1_gate_iff (s : LoggerState) (lvl : LogLevel) (msg : String) (now : Nat)
    (ctx : Option JVal) (err : Option ErrInfo) (i : Nat) (t : LogTransport)
    (ht : s.transports.get? i = some t) :
    invokedAt (BaseLogger.log s lvl msg now ctx err) i = true ↔
      s.silent = false ∧ s.level.toNat ≤ lvl.toNat ∧
      ∃ e', (runMiddleware s.middleware (BaseLogger.buildEntry s lvl msg now ctx err)).2 = some e'
        ∧ transportAccepts t e' = true := by
  unfold BaseLogger.log
  split
  · rename_i hgate
    simp only [invokedAt]
    constructor
    · intro hfalse; cases hfalse
    · rintro ⟨hs, hl, -⟩
      rcases hgate with hg | hg
      · rw [hs] at hg; cases hg
      · omega
  · rename_i hgate
    push_neg at hgate
    obtain ⟨hs, hl⟩ := hgate
    split
    · rename_i hr
      simp only [invokedAt]
      constructor
      · intro hfalse; cases hfalse
      · rintro ⟨-, -, e', he', -⟩; rw [hr] at he'; cases he'
    · rename_i e' hr
      simp only [invokedAt, writeToTransports, List.get?_map, ht, Option.map_some',
        Option.getD_some, isInvoked_attempt]
      constructor
      · intro hinv
        exact ⟨Bool.not_eq_true _ |>.mp hs, by omega, e', hr, hinv⟩
      · rintro ⟨-, -, e'', he'', hacc⟩
        rw [hr] at he''
        cases he''
        exact hacc

/-- Witness for `c1_gate_iff`: on the concrete middleware-free logger an
INFO call is delivered to the registered sink. -/
theorem c1_gate_iff_witness :
    invokedAt (BaseLogger.log c1wLogger .info "y" 0 none none) 0 = true :=
  (c1_gate_iff c1wLogger .info "y" 0 none none 0 c1wTransport rfl).mpr
    ⟨rfl, by decide, BaseLogger.buildEntry c1wLogger .info "y" 0 none none, rfl, rfl⟩

/-! ## Claim C2 — per-sink failure isolation -/

/-- Claim C2: when a sink's delivery raises, the failure is caught and lands
on the error side-channel as a `(name, message)` report, every registered
sink is still attempted (the fan-out produces one outcome per sink — nothing
re-raises out of it, so `log` and its wrappers return normally), and every
other sink whose own gate and delivery succeed still receives the entry. -/
theorem c2_failure_isolation (ts : List LogTransport) (e : LogEntry) (i : Nat)
    (t : LogTransport) (m : String)
    (hti : ts.get? i = some t)
    (hacc : transportAccepts t e = true)
    (hfail : t.log e = .error m) :
    (t.name, m) ∈ errorReports ts e ∧
    (writeToTransports ts e).length = ts.length ∧
    (∀ j u, j ≠ i → ts.get? j = some u → transportAccepts u e = true →
      u.log e = .ok () → (writeToTransports ts e).get? j = some .delivered) := by
  refine ⟨?_, by simp [writeToTransports], ?_⟩
  · rw [errorReports, List.mem_filterMap]
    refine ⟨t, List.get?_mem hti, ?_⟩
    rw [attemptTransport, if_pos hacc, hfail]
  · intro j u _ htj huacc huok
    rw [writeToTransports, List.get?_map, htj, Option.map_some']
    rw [attemptTransport, if_pos huacc, huok]

/-- Witness for `c2_failure_isolation`: with a throwing sink and a healthy
sink registered, the failure is reported, both sinks are attempted, and the
healthy sink is still delivered to. -/
theorem c2_failure_isolation_witness :
    ("faulty", "boom") ∈ errorReports [c2FailSink, c2OkSink] c2Entry ∧
    (writeToTransports [c2FailSink, c2OkSink] c2Entry).length =
      [c2FailSink, c2OkSink].length ∧
    (∀ j u, j ≠ 0 → [c2FailSink, c2OkSink].get? j = some u →
      transportAccepts u c2Entry = true → u.log c2Entry = .ok () →
      (writeToTransports [c2FailSink, c2OkSink] c2Entry).get? j = some .delivered) :=
  c2_failure_isolation [c2FailSink, c2OkSink] c2Entry 0 c2FailSink "boom" rfl rfl rfl

/-! ## Claim C3 — middleware execution discipline -/

/-- Claim C3: for an entry that passes the level gate, the executed
middleware are recorded positionally (so each runs at most once, in
registration order); every executed middleware except possibly the last one
of the record called its continuation; the chain hands the entry to the
fan-out exactly when the record shows every registered middleware continued;
and when some middleware short-circuited, the record is a true-block ending
at that first non-continuing middleware, the later ones never executing, and
the call dispatches to no sink. -/
theorem c3_middleware_chain (s : LoggerState) (lvl : LogLevel) (msg : String) (now : Nat)
    (ctx : Option JVal) (err : Option ErrInfo) (p : List Bool × Option LogEntry)
    (hgate : ¬(s.silent = true ∨ lvl.toNat < s.level.toNat))
    (hp : runMiddleware s.middleware (BaseLogger.buildEntry s lvl msg now ctx err) = p) :
    p.1.length ≤ s.middleware.length ∧
    (∀ i, i + 1 < p.1.length → p.1.get? i = some true) ∧
    ((∃ e', p.2 = some e') ↔ p.1 = List.replicate s.middleware.length true) ∧
    (p.2 = none → ∃ n, n < s.middleware.length ∧ p.1 = List.replicate n true ++ [false]) ∧
    (∀ e', p.2 = some e' →
      BaseLogger.log s lvl msg now ctx err = .dispatched p.1 (writeToTransports s.transports e')) ∧
    (p.2 = none → BaseLogger.log s lvl msg now ctx err = .dropped p.1) := by
  subst hp
  refine ⟨runMiddleware_length_le _ _, runMiddleware_executed_continue _ _,
    runMiddleware_some_iff _ _, runMiddleware_none_shape _ _, ?_, ?_⟩
  · intro e' he'
    unfold BaseLogger.log
    rw [if_neg hgate, he']
  · intro hn
    unfold BaseLogger.log
    rw [if_neg hgate, hn]

/-- Witness for `c3_middleware_chain` at a concrete two-middleware logger:
both middleware execute, the record is `[true, true]`, and the call
dispatches to the sinks. -/
theorem c3_middleware_chain_witness :
    ([true, true] : List Bool).length ≤ c3wLogger.middleware.length ∧
    (∀ i, i + 1 < ([true, true] : List Bool).length →
      ([true, true] : List Bool).get? i = some true) ∧
    ((∃ e', some c3wEntry = some e') ↔
      ([true, true] : List Bool) = List.replicate c3wLogger.middleware.length true) ∧
    ((some c3wEntry : Option LogEntry) = none →
      ∃ n, n < c3wLogger.middleware.length ∧
        ([true, true] : List Bool) = List.replicate n true ++ [false]) ∧
    (∀ e', (some c3wEntry : Option LogEntry) = some e' →
      BaseLogger.log c3wLogger .info "x" 0 none none =
        .dispatched [true, true] (writeToTransports c3wLogger.transports e')) ∧
    ((some c3wEntry : Option LogEntry) = none →
      BaseLogger.log c3wLogger .info "x" 0 none none = .dropped [true, true]) :=
  c3_middleware_chain c3wLogger .info "x" 0 none none ([true, true], some c3wEntry)
    (by decide) rfl

/-! ## Claim C8 — fatal dispatches before exiting -/

theorem transportEvents_no_exit (ts : List LogTransport) (e : LogEntry) :
    ∀ ev ∈ transportEvents ts e, ∀ c, ev ≠ .exited c := by
  intro ev hev c
  rw [transportEvents, List.mem_filterMap] at hev
  obtain ⟨t, -, hf⟩ := hev
  rcases h : attemptTransport t e with _ | _ | m <;> rw [h] at hf
  · cases hf
  · cases hf; intro hcontra; cases hcontra
  · cases hf; intro hcontra; cases hcontra

theorem logEvents_no_exit (s : LoggerState) (lvl : LogLevel) (msg : String) (now : Nat)
    (ctx : Option JVal) (err : Option ErrInfo) :
    ∀ ev ∈ BaseLogger.logEvents s lvl msg now ctx err, ∀ c, ev ≠ .exited c := by
  intro ev hev c
  unfold BaseLogger.logEvents at hev
  split at hev
  · cases hev
  · split at hev
    · cases hev
    · exact transportEvents_no_exit _ _ ev hev c

/-- Claim C8: on a fatal call with `exitOnError` configured, the observable
events are exactly the dispatch events of the underlying `log` call followed
by `process.exit(1)`: the fan-out is not dropped, no exit happens among the
dispatch events, and the exit occupies the position right after the last
dispatch event — termination is invoked only after the fan-out has run. -/
theorem c8_fatal_exit_after_dispatch (s : LoggerState) (msg : String) (now : Nat)
    (ctx : Option JVal) (err : Option ErrInfo) (hexit : s.exitOnError = true) :
    BaseLogger.fatalEvents s msg now ctx err =
      BaseLogger.logEvents s .fatal msg now ctx err ++ [.exited 1] ∧
    (∀ ev ∈ BaseLogger.logEvents s .fatal msg now ctx err, ∀ c, ev ≠ .exited c) ∧
    (BaseLogger.fatalEvents s msg now ctx err).get?
      (BaseLogger.logEvents s .fatal msg now ctx err).length = some (.exited 1) := by
  have h1 : BaseLogger.fatalEvents s msg now ctx err =
      BaseLogger.logEvents s .fatal msg now ctx err ++ [.exited 1] := by
    unfold BaseLogger.fatalEvents
    rw [hexit]
    rfl
  refine ⟨h1, logEvents_no_exit s .fatal msg now ctx err, ?_⟩
  rw [h1]
  exact List.get?_concat_length _ _

/-- Witness for `c8_fatal_exit_after_dispatch` on a concrete logger with
`exitOnError = true` and one sink. -/
theorem c8_fatal_exit_after_dispatch_witness :
    BaseLogger.fatalEvents c8wLogger "crash" 0 none none =
      BaseLogger.logEvents c8wLogger .fatal "crash" 0 none none ++ [.exited 1] ∧
    (∀ ev ∈ BaseLogger.logEvents c8wLogger .fatal "crash" 0 none none, ∀ c, ev ≠ .exited c) ∧
    (BaseLogger.fatalEvents c8wLogger "crash" 0 none none).get?
      (BaseLogger.logEvents c8wLogger .fatal "crash" 0 none none).length = some (.exited 1) :=
  c8_fatal_exit_after_dispatch c8wLogger "crash" 0 none none rfl

/-! ## Claim C4 — file rotation -/

theorem FS.unlink_apply (fs : FS) (nm n : String) :
    FS.unlink fs nm n = if n = nm then none else fs n := rfl

theorem FS.rename_apply (fs : FS) (oldN newN n : String) :
    FS.rename fs oldN newN n = if n = oldN then none else if n = newN then fs oldN else fs n := rfl

theorem FS.append_apply (fs : FS) (nm s n : String) :
    FS.append fs nm s n = if n = nm then some ((fs nm).getD "" ++ s) else fs n := rfl

theorem rotKey_ne_filename (fname : String) (i : Nat) : rotKey fname i ≠ fname := by
  intro h
  have hlen := congrArg String.length h
  rw [rotKey, String.length_append, String.length_append] at hlen
  have hdot : String.length "." = 1 := rfl
  omega

theorem rotateShift_filename (fname : String) (maxFiles : Nat) :
    ∀ (i : Nat) (fs : FS), FileTransport.rotateShift fname maxFiles i fs fname = fs fname := by
  intro i
  induction i with
  | zero => intro fs; rfl
  | succ n ih =>
    intro fs
    rw [FileTransport.rotateShift, ih]
    split
    · split
      · rw [FS.unlink_apply, if_neg (Ne.symm (rotKey_ne_filename fname (n + 1)))]
      · rw [FS.rename_apply, if_neg (Ne.symm (rotKey_ne_filename fname (n + 1))),
          if_neg (Ne.symm (rotKey_ne_filename fname (n + 2)))]
    · rfl

theorem rotateFS_filename (t : FileTransport) (fs : FS) :
    t.rotateFS fs t.filename = none := by
  unfold FileTransport.rotateFS
  split
  · rw [FS.rename_apply, if_pos rfl]
  · rename_i h
    exact Option.not_isSome_iff_eq_none.mp h

theorem rotateFS_dotOne (t : FileTransport) (fs : FS)
    (hact : (fs t.filename).isSome = true) :
    t.rotateFS fs (rotKey t.filename 1) = fs t.filename := by
  unfold FileTransport.rotateFS
  rw [rotateShift_filename]
  rw [if_pos hact]
  rw [FS.rename_apply, if_neg (rotKey_ne_filename t.filename 1), if_pos rfl,
    rotateShift_filename]

theorem fileLog_frame (t : FileTransport) (fs : FS) (e : LogEntry) :
    (FileTransport.log t fs e).1.filename = t.filename ∧
    (FileTransport.log t fs e).1.maxSize = t.maxSize ∧
    (FileTransport.log t fs e).1.maxFiles = t.maxFiles ∧
    (FileTransport.log t fs e).1.level = t.level ∧
    (FileTransport.log t fs e).1.formatter = t.formatter := by
  unfold FileTransport.log
  split
  · exact ⟨rfl, rfl, rfl, rfl, rfl⟩
  · split <;> exact ⟨rfl, rfl, rfl, rfl, rfl⟩

theorem fileLog_inv (t : FileTransport) (fs : FS) (e : LogEntry)
    (hinv : ((fs t.filename).getD "").length = t.currentSize) :
    (((FileTransport.log t fs e).2 t.filename).getD "").length =
      (FileTransport.log t fs e).1.currentSize := by
  unfold FileTransport.log
  split
  · exact hinv
  · split
    · show ((FS.append (t.rotate fs).2 t.filename (t.formatter e ++ "\n")
          t.filename).getD "").length = 0 + (t.formatter e ++ "\n").length
      have h2 : (t.rotate fs).2 = t.rotateFS fs := rfl
      rw [FS.append_apply, if_pos rfl, Option.getD_some, h2, rotateFS_filename]
      simp only [Option.getD_none, String.length_append]
      have : ("" : String).length = 0 := rfl
      omega
    · show ((FS.append fs t.filename (t.formatter e ++ "\n") t.filename).getD "").length =
        t.currentSize + (t.formatter e ++ "\n").length
      rw [FS.append_apply, if_pos rfl, Option.getD_some]
      simp only [String.length_append]
      omega

theorem fileLog_size_le (t : FileTransport) (fs : FS) (e : LogEntry)
    (hcur : t.currentSize ≤ t.maxSize)
    (hfit : (t.formatter e ++ "\n").length ≤ t.maxSize) :
    (FileTransport.log t fs e).1.currentSize ≤ t.maxSize := by
  unfold FileTransport.log
  split
  · exact hcur
  · split
    · show 0 + (t.formatter e ++ "\n").length ≤ t.maxSize
      omega
    · rename_i htrig
      show t.currentSize + (t.formatter e ++ "\n").length ≤ t.maxSize
      omega

theorem fileLog_rotation_content (t : FileTransport) (fs : FS) (e : LogEntry)
    (hinv : ((fs t.filename).getD "").length = t.currentSize)
    (hfit : (t.formatter e ++ "\n").length ≤ t.maxSize)
    (hgate : t.level.toNat ≤ e.level.toNat)
    (htrig : t.maxSize < t.currentSize + (t.formatter e ++ "\n").length) :
    (FileTransport.log t fs e).2 (rotKey t.filename 1) = fs t.filename ∧
    (FileTransport.log t fs e).2 t.filename = some (t.formatter e ++ "\n") := by
  have hpos : 0 < t.currentSize := by omega
  have hact : (fs t.filename).isSome = true := by
    rcases h : fs t.filename with _ | c
    · rw [h] at hinv
      simp only [Option.getD_none] at hinv
      have : ("" : String).length = 0 := rfl
      omega
    · rfl
  have h2 : (t.rotate fs).2 = t.rotateFS fs := rfl
  unfold FileTransport.log
  rw [if_neg (by omega), if_pos htrig]
  constructor
  · show FS.append (t.rotate fs).2 t.filename (t.formatter e ++ "\n") (rotKey t.filename 1) =
      fs t.filename
    rw [FS.append_apply, if_neg (rotKey_ne_filename t.filename 1), h2]
    exact rotateFS_dotOne t fs hact
  · show FS.append (t.rotate fs).2 t.filename (t.formatter e ++ "\n") t.filename =
      some (t.formatter e ++ "\n")
    rw [FS.append_apply, if_pos rfl, h2, rotateFS_filename]
    rfl

theorem processAll_invariants (entries : List LogEntry) :
    ∀ (t : FileTransport) (fs : FS),
      ((fs t.filename).getD "").length = t.currentSize →
      t.currentSize ≤ t.maxSize →
      (∀ x ∈ entries, (t.formatter x ++ "\n").length ≤ t.maxSize) →
      (FileTransport.processAll t fs entries).1.filename = t.filename ∧
      (FileTransport.processAll t fs entries).1.maxSize = t.maxSize ∧
      (FileTransport.processAll t fs entries).1.level = t.level ∧
      (FileTransport.processAll t fs entries).1.formatter = t.formatter ∧
      (((FileTransport.processAll t fs entries).2
          (FileTransport.processAll t fs entries).1.filename).getD "").length =
        (FileTransport.processAll t fs entries).1.currentSize ∧
      (FileTransport.processAll t fs entries).1.currentSize ≤ t.maxSize := by
  induction entries with
  | nil =>
    intro t fs hinv hcur _
    exact ⟨rfl, rfl, rfl, rfl, hinv, hcur⟩
  | cons e rest ih =>
    intro t fs hinv hcur hfit
    obtain ⟨hfn, hms, hmf, hlv, hfm⟩ := fileLog_frame t fs e
    have hinv' := fileLog_inv t fs e hinv
    have hcur' := fileLog_size_le t fs e hcur (hfit e (by simp))
    rw [FileTransport.processAll]
    have hres := ih (FileTransport.log t fs e).1 (FileTransport.log t fs e).2
      (by rw [hfn]; exact hinv') (by rw [hms]; exact hcur')
      (by intro x hx; rw [hfm, hms]; exact hfit x (by simp [hx]))
    refine ⟨?_, ?_, ?_, ?_, hres.2.2.2.2.1, ?_⟩
    · rw [hres.1, hfn]
    · rw [hres.2.1, hms]
    · rw [hres.2.2.1, hlv]
    · rw [hres.2.2.2.1, hfm]
    · calc ((FileTransport.log t fs e).1.processAll (FileTransport.log t fs e).2 rest).1.currentSize
          ≤ (FileTransport.log t fs e).1.maxSize := hres.2.2.2.2.2
        _ = t.maxSize := hms

/-- Claim C4, counterexample: a fresh file sink with `maxSize = 5` receives
one entry whose formatted content is 11 bytes. The write triggers rotation
(into an empty file) and then appends anyway, so after this single
write-rotation cycle the active file holds 11 bytes — more than `maxSize`.
The claim's "the active file's size never exceeds maxSize" therefore fails
without a bound on the size of an individual formatted entry. -/
theorem c4_counterexample :
    c4xTransport.maxSize = 5 ∧
    (((FileTransport.log c4xTransport emptyFS c4xEntry).2 "app.log").getD "").length = 11 := by
  exact ⟨rfl, by decide⟩

/-- Claim C4 (amended): for a fresh file sink and any delivery sequence in
which every formatted entry (with its newline separator) is at most
`maxSize` bytes, after every single write-rotation cycle the active file's
size is at most `maxSize`; and when a write triggers rotation,
`<filename>.1` afterwards holds exactly the content the active file had
immediately before that write, while the new entry lands alone in the
freshly emptied active file. -/
theorem c4_rotation_cycle (lvl : LogLevel) (fname : String) (maxSize maxFiles : Nat)
    (fmt : LogEntry → String) (pre : List LogEntry) (e : LogEntry) (rest : List LogEntry)
    (hfit : ∀ x ∈ pre ++ e :: rest, (fmt x ++ "\n").length ≤ maxSize) :
    (((FileTransport.log (c4Run lvl fname maxSize maxFiles fmt pre).1
        (c4Run lvl fname maxSize maxFiles fmt pre).2 e).2 fname).getD "").length ≤ maxSize ∧
    (lvl.toNat ≤ e.level.toNat →
      maxSize < (c4Run lvl fname maxSize maxFiles fmt pre).1.currentSize +
        (fmt e ++ "\n").length →
      (FileTransport.log (c4Run lvl fname maxSize maxFiles fmt pre).1
          (c4Run lvl fname maxSize maxFiles fmt pre).2 e).2 (rotKey fname 1) =
        (c4Run lvl fname maxSize maxFiles fmt pre).2 fname ∧
      (FileTransport.log (c4Run lvl fname maxSize maxFiles fmt pre).1
          (c4Run lvl fname maxSize maxFiles fmt pre).2 e).2 fname =
        some (fmt e ++ "\n")) := by
  have hbase := processAll_invariants pre (initialFileTransport lvl fname maxSize maxFiles fmt)
    emptyFS rfl (Nat.zero_le _)
    (fun x hx => hfit x (List.mem_append_left _ hx))
  obtain ⟨hfn, hms, hlv, hfm, hinv, hcur⟩ := hbase
  have hfn' : (c4Run lvl fname maxSize maxFiles fmt pre).1.filename = fname := hfn
  have hms' : (c4Run lvl fname maxSize maxFiles fmt pre).1.maxSize = maxSize := hms
  have hlv' : (c4Run lvl fname maxSize maxFiles fmt pre).1.level = lvl := hlv
  have hfm' : (c4Run lvl fname maxSize maxFiles fmt pre).1.formatter = fmt := hfm
  have hinv' : (((c4Run lvl fname maxSize maxFiles fmt pre).2
      (c4Run lvl fname maxSize maxFiles fmt pre).1.filename).getD "").length =
      (c4Run lvl fname maxSize maxFiles fmt pre).1.currentSize := hinv
  rw [hfn'] at hinv'
  have hfite : ((c4Run lvl fname maxSize maxFiles fmt pre).1.formatter e ++ "\n").length ≤
      (c4Run lvl fname maxSize maxFiles fmt pre).1.maxSize := by
    rw [hfm', hms']
    exact hfit e (List.mem_append_right _ (by simp))
  constructor
  · have h1 := fileLog_inv (c4Run lvl fname maxSize maxFiles fmt pre).1
      (c4Run lvl fname maxSize maxFiles fmt pre).2 e (by rw [hfn']; exact hinv')
    have h2 := fileLog_size_le (c4Run lvl fname maxSize maxFiles fmt pre).1
      (c4Run lvl fname maxSize maxFiles fmt pre).2 e (by rw [hms']; exact hcur) hfite
    rw [hfn'] at h1
    rw [h1]
    rw [hms'] at h2
    exact h2
  · intro hg htrig
    have hres := fileLog_rotation_content (c4Run lvl fname maxSize maxFiles fmt pre).1
      (c4Run lvl fname maxSize maxFiles fmt pre).2 e
      (by rw [hfn']; exact hinv') hfite
      (by rw [hlv']; exact hg)
      (by rw [hms', hfm']; exact htrig)
    rw [hfn', hfm'] at hres
    exact hres

/-- Witness for `c4_rotation_cycle`: `maxSize = 6`, a 4-byte first write,
then a 5-byte write that must rotate. -/
theorem c4_rotation_cycle_witness :
    (((FileTransport.log (c4Run .info "app.log" 6 3 (fun e => e.message) [c4wE1]).1
        (c4Run .info "app.log" 6 3 (fun e => e.message) [c4wE1]).2 c4wE2).2 "app.log").getD
        "").length ≤ 6 ∧
    (LogLevel.info.toNat ≤ c4wE2.level.toNat →
      6 < (c4Run .info "app.log" 6 3 (fun e => e.message) [c4wE1]).1.currentSize +
        (c4wE2.message ++ "\n").length →
      (FileTransport.log (c4Run .info "app.log" 6 3 (fun e => e.message) [c4wE1]).1
          (c4Run .info "app.log" 6 3 (fun e => e.message) [c4wE1]).2 c4wE2).2
          (rotKey "app.log" 1) =
        (c4Run .info "app.log" 6 3 (fun e => e.message) [c4wE1]).2 "app.log" ∧
      (FileTransport.log (c4Run .info "app.log" 6 3 (fun e => e.message) [c4wE1]).1
          (c4Run .info "app.log" 6 3 (fun e => e.message) [c4wE1]).2 c4wE2).2 "app.log" =
        some (c4wE2.message ++ "\n")) :=
  c4_rotation_cycle .info "app.log" 6 3 (fun e => e.message) [c4wE1] c4wE2 []
    (by decide)

/-! ## Claim C5 — batch-size flush -/

/-- Claim C5: when a delivery that passes the sink's level filter makes the
pending buffer length reach `batchSize`, exactly one transmission is
triggered, its payload is exactly the pending entries followed by the new
one — submission order — and (the transmission succeeding) the buffer is
left empty: all pending entries were removed. -/
theorem c5_batch_flush (t : HttpTransport) (e : LogEntry)
    (hacc : t.level.toNat ≤ e.level.toNat)
    (hlen : t.buffer.length + 1 = t.batchSize) :
    (HttpTransport.log t e true).2 = [t.buffer ++ [e]] ∧
    (HttpTransport.log t e true).1.buffer = [] := by
  unfold HttpTransport.log
  rw [if_neg (by omega)]
  rw [if_pos (by simp; omega)]
  unfold HttpTransport.flush
  rw [if_neg (by simp)]
  rw [if_pos rfl]
  exact ⟨rfl, rfl⟩

/-- Witness for `c5_batch_flush`: the third buffered delivery transmits
exactly the three pending entries and empties the buffer. -/
theorem c5_batch_flush_witness :
    (HttpTransport.log c5wTransport c4wE2 true).2 = [c5wTransport.buffer ++ [c4wE2]] ∧
    (HttpTransport.log c5wTransport c4wE2 true).1.buffer = [] :=
  c5_batch_flush c5wTransport c4wE2 (by decide) rfl

/-! ## Claim C6 — requeue on transmission failure -/

/-- Claim C6: a failing flush (network error or non-ok response) puts the
entries it removed back at the front of the pending buffer, in their
original order, ahead of everything queued while the transmission was in
flight — no entry is dropped — and the failed attempt transmitted exactly
the removed entries. -/
theorem c6_requeue_on_failure (t : HttpTransport) (arrived : List LogEntry)
    (hne : t.buffer ≠ []) :
    (t.flush false arrived).1.buffer = t.buffer ++ arrived ∧
    (t.flush false arrived).2 = [t.buffer] := by
  unfold HttpTransport.flush
  rw [if_neg (by simpa using hne)]
  exact ⟨rfl, rfl⟩

/-- Witness for `c6_requeue_on_failure`: after a failed flush with one entry
queued during the request, the buffer is the three removed entries followed
by the late one. -/
theorem c6_requeue_on_failure_witness :
    (c6wTransport.flush false [c4wE1]).1.buffer = c6wTransport.buffer ++ [c4wE1] ∧
    (c6wTransport.flush false [c4wE1]).2 = [c6wTransport.buffer] :=
  c6_requeue_on_failure c6wTransport [c4wE1] (by simp [c6wTransport])

/-! ## Claim C7 — child loggers and the shared registries -/

/-- Claim C7, counterexample: create a child, then `addTransport` a sink on
the parent. The child — created before the addition — now sees the new sink
(its transports view went from `[]` to the one-sink list), because parent
and child hold the same array reference and `push` mutates it in place. The
claim's "adding a sink to the parent after the child's creation is not
reflected in the previously created child" is false on the code. -/
theorem c7_counterexample :
    BaseLogger.transportsOf
        (BaseLogger.addTransport (Logger.child c7xHeap c7xParent []).1 c7xParent c1wTransport)
        (Logger.child c7xHeap c7xParent []).2 = [c1wTransport] ∧
    BaseLogger.transportsOf (Logger.child c7xHeap c7xParent []).1
        (Logger.child c7xHeap c7xParent []).2 = [] :=
  ⟨rfl, rfl⟩

/-- Claim C7 (amended): a child shares its parent's transports array by
reference, so a sink added to the parent after the child's creation IS
visible to the child (the addition lands at the end of the shared array);
the middleware list, in contrast, is copied by value at child creation —
the child starts with the parent's middleware of that moment, and later
`use()` on the parent does not affect the child, nor vice versa. -/
theorem c7_child_registries (h : LoggerHeap) (lg : LoggerRef) (meta : List (String × JVal))
    (hval : lg.middlewareRef < h.mStore.next) :
    (∀ t, BaseLogger.transportsOf
        (BaseLogger.addTransport (Logger.child h lg meta).1 lg t)
        (Logger.child h lg meta).2 =
      BaseLogger.transportsOf (Logger.child h lg meta).1 (Logger.child h lg meta).2 ++ [t]) ∧
    BaseLogger.middlewareOf (Logger.child h lg meta).1 (Logger.child h lg meta).2 =
      BaseLogger.middlewareOf h lg ∧
    (∀ m, BaseLogger.middlewareOf
        (BaseLogger.use (Logger.child h lg meta).1 lg m) (Logger.child h lg meta).2 =
      BaseLogger.middlewareOf (Logger.child h lg meta).1 (Logger.child h lg meta).2) ∧
    (∀ m, BaseLogger.middlewareOf
        (BaseLogger.use (Logger.child h lg meta).1 (Logger.child h lg meta).2 m) lg =
      BaseLogger.middlewareOf (Logger.child h lg meta).1 lg) := by
  have hne : h.mStore.next ≠ lg.middlewareRef := ne_of_gt hval
  have hne' : lg.middlewareRef ≠ h.mStore.next := ne_of_lt hval
  refine ⟨?_, ?_, ?_, ?_⟩
  · intro t
    simp [Logger.child, BaseLogger.addTransport, BaseLogger.transportsOf,
      Store.alloc, Store.get, Store.push]
  · simp [Logger.child, BaseLogger.middlewareOf, Store.alloc, Store.get]
  · intro m
    simp [Logger.child, BaseLogger.use, BaseLogger.middlewareOf,
      Store.alloc, Store.get, Store.push, hne]
  · intro m
    simp [Logger.child, BaseLogger.use, BaseLogger.middlewareOf,
      Store.alloc, Store.get, Store.push, hne, hne']

/-- Witness for `c7_child_registries` on the concrete one-reference heap:
the shared-sinks and independent-middleware behavior at `c7xHeap`. -/
theorem c7_child_registries_witness :
    (∀ t, BaseLogger.transportsOf
        (BaseLogger.addTransport (Logger.child c7xHeap c7xParent []).1 c7xParent t)
        (Logger.child c7xHeap c7xParent []).2 =
      BaseLogger.transportsOf (Logger.child c7xHeap c7xParent []).1
        (Logger.child c7xHeap c7xParent []).2 ++ [t]) ∧
    BaseLogger.middlewareOf (Logger.child c7xHeap c7xParent []).1
        (Logger.child c7xHeap c7xParent []).2 =
      BaseLogger.middlewareOf c7xHeap c7xParent ∧
    (∀ m, BaseLogger.middlewareOf
        (BaseLogger.use (Logger.child c7xHeap c7xParent []).1 c7xParent m)
        (Logger.child c7xHeap c7xParent []).2 =
      BaseLogger.middlewareOf (Logger.child c7xHeap c7xParent []).1
        (Logger.child c7xHeap c7xParent []).2) ∧
    (∀ m, BaseLogger.middlewareOf
        (BaseLogger.use (Logger.child c7xHeap c7xParent []).1
          (Logger.child c7xHeap c7xParent []).2 m) c7xParent =
      BaseLogger.middlewareOf (Logger.child c7xHeap c7xParent []).1 c7xParent) :=
  c7_child_registries c7xHeap c7xParent [] (by decide)

/-! ## Claim C10 — memory transport ring buffer -/

theorem memLog_lastN (lvl : LogLevel) (maxSize : Nat) (acc : List LogEntry) (e : LogEntry) :
    MemoryTransport.log { level := lvl, maxSize := maxSize, logs := lastN maxSize acc } e =
      { level := lvl, maxSize := maxSize,
        logs := lastN maxSize (acc ++ if lvl.toNat ≤ e.level.toNat then [e] else []) } := by
  unfold MemoryTransport.log
  dsimp only
  by_cases hacc : e.level.toNat < lvl.toNat
  · rw [if_pos hacc, if_neg (by omega)]
    simp
  · rw [if_neg hacc, if_pos (show lvl.toNat ≤ e.level.toNat by omega)]
    by_cases hlt : acc.length < maxSize
    · have hlast : lastN maxSize acc = acc := by
        rw [lastN, Nat.sub_eq_zero_of_le (le_of_lt hlt), List.drop_zero]
      rw [hlast, if_neg (show ¬maxSize < (acc ++ [e]).length by simp; omega)]
      have hz : (acc ++ [e]).length - maxSize = 0 := by simp; omega
      rw [lastN, hz, List.drop_zero]
    · have hlen : (lastN maxSize acc).length = maxSize := by
        rw [lastN, List.length_drop]
        omega
      rw [if_pos (show maxSize < (lastN maxSize acc ++ [e]).length by simp [hlen])]
      have hdrop : lastN maxSize acc ++ [e] = (acc ++ [e]).drop (acc.length - maxSize) := by
        rw [lastN, List.drop_append_of_le_length (by omega)]
      rw [hdrop, List.tail_drop]
      have harith : acc.length - maxSize + 1 = (acc ++ [e]).length - maxSize := by
        simp
        omega
      rw [harith, lastN]

theorem memProcessAll_lastN (entries : List LogEntry) :
    ∀ (lvl : LogLevel) (maxSize : Nat) (acc : List LogEntry),
      MemoryTransport.processAll
          { level := lvl, maxSize := maxSize, logs := lastN maxSize acc } entries =
        { level := lvl, maxSize := maxSize,
          logs := lastN maxSize
            (acc ++ entries.filter (fun e => decide (lvl.toNat ≤ e.level.toNat))) } := by
  induction entries with
  | nil =>
    intro lvl maxSize acc
    simp [MemoryTransport.processAll]
  | cons e rest ih =>
    intro lvl maxSize acc
    unfold MemoryTransport.processAll
    rw [List.foldl_cons, memLog_lastN]
    by_cases hacc : lvl.toNat ≤ e.level.toNat
    · rw [if_pos hacc]
      have hrec := ih lvl maxSize (acc ++ [e])
      unfold MemoryTransport.processAll at hrec
      rw [hrec]
      simp [List.filter_cons, hacc]
    · rw [if_neg hacc]
      have hrec := ih lvl maxSize acc
      unfold MemoryTransport.processAll at hrec
      simp only [List.append_nil]
      rw [hrec]
      simp [List.filter_cons, hacc]

/-- Claim C10: after any delivery sequence to a fresh memory transport the
retained entries are exactly the last `maxSize` entries at or above the
transport level, in delivery order — so the count never exceeds `maxSize`
and each overflow evicted exactly the oldest retained entry — and
`getLogs` returns a freshly allocated copy: overwriting it does not change
any pre-existing array, and it holds exactly the retained entries. -/
theorem c10_memory_ring (lvl : LogLevel) (maxSize : Nat) (entries : List LogEntry) :
    (c10Run lvl maxSize entries).logs =
      lastN maxSize (entries.filter (fun e => decide (lvl.toNat ≤ e.level.toNat))) ∧
    (c10Run lvl maxSize entries).logs.length ≤ maxSize ∧
    (∀ (σ : Store LogEntry) (r : Nat) (v : List LogEntry), r < σ.next →
      Store.get
        ((MemoryTransport.getLogs σ (c10Run lvl maxSize entries)).1.set
          (MemoryTransport.getLogs σ (c10Run lvl maxSize entries)).2 v) r = Store.get σ r) ∧
    (∀ σ : Store LogEntry,
      Store.get (MemoryTransport.getLogs σ (c10Run lvl maxSize entries)).1
        (MemoryTransport.getLogs σ (c10Run lvl maxSize entries)).2 =
      (c10Run lvl maxSize entries).logs) := by
  have hrun : (c10Run lvl maxSize entries).logs =
      lastN maxSize (entries.filter (fun e => decide (lvl.toNat ≤ e.level.toNat))) := by
    have h0 : (lastN maxSize ([] : List LogEntry)) = [] := by simp [lastN]
    have := memProcessAll_lastN entries lvl maxSize []
    rw [h0] at this
    unfold c10Run
    rw [this]
    simp
  refine ⟨hrun, ?_, ?_, ?_⟩
  · rw [hrun, lastN]
    simp [List.length_drop]
    omega
  · intro σ r v hr
    have hne : r ≠ σ.next := ne_of_lt hr
    simp [MemoryTransport.getLogs, Store.alloc, Store.set, Store.get, hne]
  · intro σ
    simp [MemoryTransport.getLogs, Store.alloc, Store.get]

/-- Witness for `c10_memory_ring`: a concrete three-delivery run with
capacity 2. -/
theorem c10_memory_ring_witness :
    (c10Run .trace 2 [c4wE1, c4wE1, c4wE2]).logs =
      lastN 2 ([c4wE1, c4wE1, c4wE2].filter
        (fun e => decide (LogLevel.trace.toNat ≤ e.level.toNat))) ∧
    (c10Run .trace 2 [c4wE1, c4wE1, c4wE2]).logs.length ≤ 2 ∧
    (∀ (σ : Store LogEntry) (r : Nat) (v : List LogEntry), r < σ.next →
      Store.get
        ((MemoryTransport.getLogs σ (c10Run .trace 2 [c4wE1, c4wE1, c4wE2])).1.set
          (MemoryTransport.getLogs σ (c10Run .trace 2 [c4wE1, c4wE1, c4wE2])).2 v) r =
        Store.get σ r) ∧
    (∀ σ : Store LogEntry,
      Store.get (MemoryTransport.getLogs σ (c10Run .trace 2 [c4wE1, c4wE1, c4wE2])).1
        (MemoryTransport.getLogs σ (c10Run .trace 2 [c4wE1, c4wE1, c4wE2])).2 =
      (c10Run .trace 2 [c4wE1, c4wE1, c4wE2]).logs) :=
  c10_memory_ring .trace 2 [c4wE1, c4wE1, c4wE2]

/-! ## Claim C9 — formatters and malformed context -/

theorem refFreeAux_append (a b : List (String × JVal)) :
    refFreeAux (.inr (a ++ b)) = (refFreeAux (.inr a) && refFreeAux (.inr b)) := by
  induction a with
  | nil => simp [refFreeAux]
  | cons kv rest ih =>
    cases kv
    rw [List.cons_append, refFreeAux, refFreeAux, ih, Bool.and_assoc]

theorem stringify_ok_of_refFree (h : JHeap) (x : JVal ⊕ List (String × JVal))
    (hx : refFreeAux x = true) :
    ∀ fuel seen, ∃ s, stringifyAux h fuel seen x = .ok s := by
  induction x using refFreeAux.induct with
  | case1 s => intro fuel seen; exact ⟨_, by rw [stringifyAux]⟩
  | case2 n => intro fuel seen; exact ⟨_, by rw [stringifyAux]⟩
  | case3 b => intro fuel seen; exact ⟨_, by rw [stringifyAux]⟩
  | case4 => intro fuel seen; exact ⟨_, by rw [stringifyAux]⟩
  | case5 r => rw [refFreeAux] at hx; cases hx
  | case6 fields ih =>
    rw [refFreeAux] at hx
    intro fuel seen
    obtain ⟨s, hs⟩ := ih hx fuel seen
    refine ⟨"\x7b" ++ s ++ "\x7d", ?_⟩
    rw [stringifyAux, hs]
    rfl
  | case7 => intro fuel seen; exact ⟨_, by rw [stringifyAux]⟩
  | case8 k v rest ihv ihr =>
    rw [refFreeAux, Bool.and_eq_true] at hx
    intro fuel seen
    obtain ⟨sv, hsv⟩ := ihv hx.1 fuel seen
    obtain ⟨sr, hsr⟩ := ihr hx.2 fuel seen
    refine ⟨"\"" ++ k ++ "\":" ++ sv ++ (if rest.isEmpty then "" else ",") ++ sr, ?_⟩
    rw [stringifyAux, hsv, hsr]
    rfl

/-- Claim C9, counterexample: on an entry whose context is the cyclic
object — the repository's own test scenario — both formatters raise:
`JSON.stringify` throws on the circular structure and neither formatter
catches it or substitutes a placeholder. (The exception is then caught at
the fan-out/transport boundary, so `log` itself still does not throw.) -/
theorem c9_counterexample :
    JsonFormatter.format c9xHeap 1 c9xEntry = .error () ∧
    SimpleFormatter.format c9xHeap 1 c9xEntry = .error () := by
  have hcyc : stringifyAux c9xHeap 1 [] (.inl (.ref 0)) = .error () := by
    simp [stringifyAux, c9xHeap]
    rfl
  constructor
  · simp [JsonFormatter.format, JsonFormatter.fields, c9xEntry, stringifyAux, c9xHeap]
    rfl
  · simp [SimpleFormatter.format, c9xEntry, contextKeyCount, c9xHeap, hcyc]
    rfl

/-- Claim C9 (amended): formatting cannot raise as long as the entry's
caller-supplied values (context and metadata) are self-contained inline
structures — in particular acyclic; both formatters then return text for
any entry. A context containing object references can be cyclic, and on a
cycle `JSON.stringify` throws and the formatters propagate the exception
(no placeholder is substituted); that failure is caught only later, at the
sink fan-out boundary. -/
theorem c9_format_total_on_selfContained (h : JHeap) (fuel : Nat) (e : LogEntry)
    (he : e.refFreeVals = true) :
    (∃ s, JsonFormatter.format h fuel e = .ok s) ∧
    (∃ s, SimpleFormatter.format h fuel e = .ok s) := by
  unfold LogEntry.refFreeVals at he
  rw [Bool.and_eq_true] at he
  obtain ⟨hctx, hmeta⟩ := he
  constructor
  · have hA : refFreeAux (.inr [("timestamp", JVal.jstr (dateToISOString e.timestamp)),
        ("level", JVal.jstr e.level.name), ("message", JVal.jstr e.message)]) = true := by
      simp [refFreeAux]
    have hB : refFreeAux (.inr (match e.context with
        | some c => [("context", c)]
        | none => [])) = true := by
      rcases hc : e.context with _ | c
      · simp [refFreeAux]
      · rw [hc] at hctx
        have hctx' : refFreeAux (.inl c) = true := hctx
        simp [refFreeAux, hctx']
    have hC : refFreeAux (.inr (match e.error with
        | some er =>
          [("error", JVal.obj ([("name", JVal.jstr er.name), ("message", JVal.jstr er.message)]
            ++ (match er.stack with
                | some st => [("stack", JVal.jstr st)]
                | none => [])))]
        | none => [])) = true := by
      rcases e.error with _ | er
      · simp [refFreeAux]
      · rcases hst : er.stack with _ | st <;> simp [hst, refFreeAux, refFreeAux_append]
    have hD : refFreeAux (.inr [("meta", JVal.obj e.meta)]) = true := by
      simp [refFreeAux, hmeta]
    have hfields : refFreeAux (.inr (JsonFormatter.fields e)) = true := by
      unfold JsonFormatter.fields
      rw [refFreeAux_append, refFreeAux_append, refFreeAux_append, hA, hB, hC, hD]
      rfl
    obtain ⟨s, hs⟩ := stringify_ok_of_refFree h _ hfields fuel []
    exact ⟨_, by unfold JsonFormatter.format; rw [hs]; rfl⟩
  · rcases hc : e.context with _ | c
    · refine ⟨SimpleFormatter.withError e (SimpleFormatter.head e), ?_⟩
      unfold SimpleFormatter.format
      rw [hc]
      rfl
    · rw [hc] at hctx
      have hctx' : refFreeAux (.inl c) = true := hctx
      by_cases hcnt : 0 < contextKeyCount h c
      · obtain ⟨s, hs⟩ := stringify_ok_of_refFree h _ hctx' fuel []
        refine ⟨SimpleFormatter.withError e (SimpleFormatter.head e ++ " " ++ s), ?_⟩
        unfold SimpleFormatter.format
        rw [hc]
        dsimp only
        rw [if_pos hcnt, hs]
        rfl
      · refine ⟨SimpleFormatter.withError e (SimpleFormatter.head e), ?_⟩
        unfold SimpleFormatter.format
        rw [hc]
        dsimp only
        rw [if_neg hcnt]
        rfl

/-- Witness for `c9_format_total_on_selfContained` at a concrete
self-contained entry: both formatters produce text. -/
theorem c9_format_total_witness :
    (∃ s, JsonFormatter.format c9xHeap 5 c9wEntry = .ok s) ∧
    (∃ s, SimpleFormatter.format c9xHeap 5 c9wEntry = .ok s) :=
  c9_format_total_on_selfContained c9xHeap 5 c9wEntry
    (by simp [LogEntry.refFreeVals, c9wEntry, refFreeAux])

end GlyphLog
